import Mathlib

/-!
Verification of the post extraction and normalization pipeline of the
`get_the_nini` scraper, shallowly embedded from its two Python sources:
`ninisite_scraper.py` (namespace `V1`) and `ninisite_scraper_v2.py`
(namespace `V2`).  Strings are embedded as `List Char`; DOM trees are
embedded as records of the individual queried nodes' texts (the structural
query layer is an external collaborator per the spec, so a raw document is
represented by the results of the fixed lookups the code performs on it).

Conventions used to model Python's `re` on this code's fixed patterns:
* `\s` is the Python whitespace class (`isPySpace` below lists it).
* `\d` is modelled as the ASCII digits `0`-`9` (Python's `\d` also accepts
  other Unicode decimal digits; the fixed formats handled by these scrapers
  emit ASCII digits, and no claim distinguishes the two sets).
* `re.sub` scans left to right and restarts after each replaced match; the
  scanning functions below do the same.  Several are written with an explicit
  fuel argument (initialized to the input length, which the step relation
  never exhausts because every match consumes at least one character) so that
  they are structurally recursive and computable by `decide`.
-/

/-- Python's `\s` / `str.strip` whitespace class for `str` patterns. -/
def isPySpace (c : Char) : Bool :=
  c == ' ' || c == '\t' || c == '\n' || c == '\r' || c.val == 0x0b || c.val == 0x0c ||
  (0x1c ≤ c.val && c.val ≤ 0x1f) || c.val == 0x85 || c.val == 0xa0 || c.val == 0x1680 ||
  (0x2000 ≤ c.val && c.val ≤ 0x200a) || c.val == 0x2028 || c.val == 0x2029 ||
  c.val == 0x202f || c.val == 0x205f || c.val == 0x3000

/-- Python `str.strip()`: drop whitespace from both ends. -/
def stripWS (l : List Char) : List Char :=
  List.rdropWhile isPySpace (l.dropWhile isPySpace)

namespace V2

/-- Embeds `re.sub(r'\s+', ' ', content)`: collapse every maximal whitespace run to a
single space (processed right to left; a whitespace character in front of an
already-collapsed run is absorbed into its single space). -/
def collapseWS : List Char → List Char
  | [] => []
  | c :: cs =>
    if isPySpace c then
      if (collapseWS cs).headD 'x' == ' ' then collapseWS cs
      else ' ' :: collapseWS cs
    else c :: collapseWS cs

/-- Embeds `re.sub(r'\\+', '', content)`: runs of backslashes are replaced by nothing,
i.e. every backslash is removed. -/
def removeBackslashes (l : List Char) : List Char :=
  l.filter (fun c => !(c == '\\'))

/-- The `[|:]` character class. -/
def isPipeColon (c : Char) : Bool :=
  c == '|' || c == ':'

/-- One scanning pass of `re.sub(r'\s*[|:]+\s*', ' ', content)`.  A match
starts at the current position iff the maximal whitespace run from here is
followed by a `|` or `:`; the match greedily takes that run, the `[|:]` run,
and the following whitespace run, and is replaced by one space.  Fuel is the
number of scan steps (each consumes at least one character). -/
def sub3Go : Nat → List Char → List Char
  | _, [] => []
  | 0, l => l
  | f + 1, c :: cs =>
    if isPipeColon (((c :: cs).dropWhile isPySpace).headD 'a') then
      ' ' :: sub3Go f ((((c :: cs).dropWhile isPySpace).dropWhile isPipeColon).dropWhile isPySpace)
    else
      c :: sub3Go f cs

/-- Embeds `re.sub(r'\s*[|:]+\s*', ' ', content)`. -/
def sub3 (l : List Char) : List Char :=
  sub3Go l.length l

/-- The metadata labels of `(تعداد پست|عضویت|امتیاز)`, in alternation order. -/
def metaLabels : List (List Char) :=
  [("تعداد پست").data, ("عضویت").data, ("امتیاز").data]

/-- Try the label alternation as a literal match at the head of `l`. -/
def dropLabel (l : List Char) : Option (List Char) :=
  if ("تعداد پست").data.isPrefixOf l then some (l.drop ("تعداد پست").data.length)
  else if ("عضویت").data.isPrefixOf l then some (l.drop ("عضویت").data.length)
  else if ("امتیاز").data.isPrefixOf l then some (l.drop ("امتیاز").data.length)
  else none

/-- Match `(تعداد پست|عضویت|امتیاز):\s*[\d/]+` at the head of `l`, returning
the remainder after the (greedy) match. -/
def matchMetaAt (l : List Char) : Option (List Char) :=
  match dropLabel l with
  | some r =>
    match r with
    | ':' :: r2 =>
      let r3 := r2.dropWhile isPySpace
      match r3 with
      | c :: _ =>
        if c.isDigit || c == '/' then
          some (r3.dropWhile (fun d => d.isDigit || d == '/'))
        else none
      | [] => none
    | _ => none
  | none => none

/-- Scanning pass of `re.sub(r'(تعداد پست|عضویت|امتیاز):\s*[\d/]+', '', content)`. -/
def subMetaGo : Nat → List Char → List Char
  | _, [] => []
  | 0, l => l
  | f + 1, c :: cs =>
    match matchMetaAt (c :: cs) with
    | some rest => subMetaGo f rest
    | none => c :: subMetaGo f cs

/-- Embeds `re.sub(r'(تعداد پست|عضویت|امتیاز):\s*[\d/]+', '', content)`. -/
def subMeta (l : List Char) : List Char :=
  subMetaGo l.length l

/-- Python `str.replace(term, '')`: remove the non-overlapping occurrences of
`pat`, scanning left to right and continuing after each removal. -/
def removeSubGo (pat : List Char) : Nat → List Char → List Char
  | _, [] => []
  | 0, l => l
  | f + 1, c :: cs =>
    if !pat.isEmpty && pat.isPrefixOf (c :: cs) then
      removeSubGo pat f (List.drop pat.length (c :: cs))
    else
      c :: removeSubGo pat f cs

/-- Python `str.replace(pat, '')`. -/
def removeSub (pat l : List Char) : List Char :=
  removeSubGo pat l.length l

/-- The `nav_terms` list of `clean_content`, in source order. -/
def navTermsClean : List (List Char) :=
  [("تبادل نظر").data, ("ثبت نام").data, ("مجله").data, ("فروشگاه").data,
   ("بارداری").data, ("مشاورین").data, ("کانون").data, ("دسته بندی").data]

/-- Embeds `for term in nav_terms: content = content.replace(term, '')`. -/
def removeNavTerms (l : List Char) : List Char :=
  navTermsClean.foldl (fun acc t => removeSub t acc) l

/-- Does `re.sub(r'^\s*\d{4}/\d{2}/\d{2}\s*$', '', content)` match the whole
string (leading whitespace, a `dddd/dd/dd` date, trailing whitespace)? -/
def matchesDateOnly (l : List Char) : Bool :=
  match l.dropWhile isPySpace with
  | a :: b :: c :: d :: '/' :: e :: f :: '/' :: g :: h :: rest =>
    a.isDigit && b.isDigit && c.isDigit && d.isDigit && e.isDigit && f.isDigit &&
    g.isDigit && h.isDigit && rest.all isPySpace
  | _ => false

/-- Embeds `re.sub(r'^\s*\d{4}/\d{2}/\d{2}\s*$', '', content)`: an anchored match
erases the whole string, otherwise nothing changes. -/
def dropDateOnly (l : List Char) : List Char :=
  if matchesDateOnly l then [] else l

/-- Embeds `content = content.strip(); if len(content) < 30: return ""`. -/
def minLengthGate (l : List Char) : List Char :=
  let t := stripWS l
  if t.length < 30 then [] else t

/-- Embeds `NiniesiteScraper.clean_content`: the cleaning pipeline applied in source
order (`if not content: return ""` guard, whitespace collapse, backslash
stripping, `[|:]`-run stripping, metadata-label removal, navigational-term
removal, standalone-date removal, strip + 30-character minimum). -/
def clean_content (content : List Char) : List Char :=
  if content.isEmpty then []
  else
    minLengthGate (dropDateOnly (removeNavTerms (subMeta (sub3 (removeBackslashes
      (collapseWS content))))))

/-- One raw post-like document unit as seen by `extract_post_data` in
`ninisite_scraper_v2.py`: the texts of the nodes its fixed lookups return
(`None` when the lookup finds nothing). -/
structure PostElem where
  /-- Embeds `get_text()` of the `a.username` / profile link, when found. -/
  usernameText : Option (List Char)
  /-- Embeds `get_text()` of the `p` inside a `post-content` div (or of the whole
  div when it has no `p`), when such a div is found. -/
  containerText : Option (List Char)
  /-- Embeds `get_text()` of the `span.timestamp`, when found. -/
  timestampText : Option (List Char)
  /-- Embeds `post_elem.get_text()` of the whole element (fallback content source and
  timestamp-pattern search space). -/
  fullText : List Char
  deriving DecidableEq

/-- The candidate-post dictionary built by `extract_post_data`
(`post_number` and `user_info` are never filled in by the source). -/
structure PostData where
  content : List Char
  username : List Char
  timestamp : List Char
  deriving DecidableEq

/-- Match `عضویت:\s*\d{4}/\d{2}/\d{2}` at the head of `l` (remainder on success). -/
def matchJoinAt (l : List Char) : Option (List Char) :=
  if ("عضویت").data.isPrefixOf l then
    match (l.drop ("عضویت").data.length) with
    | ':' :: r2 =>
      match r2.dropWhile isPySpace with
      | a :: b :: c :: d :: '/' :: e :: f :: '/' :: g :: h :: rest =>
        if a.isDigit && b.isDigit && c.isDigit && d.isDigit && e.isDigit && f.isDigit &&
            g.isDigit && h.isDigit then some rest else none
      | _ => none
    | _ => none
  else none

/-- Scanning pass of `re.sub(r'عضویت:\s*\d{4}/\d{2}/\d{2}', '', content)`. -/
def subJoinGo : Nat → List Char → List Char
  | _, [] => []
  | 0, l => l
  | f + 1, c :: cs =>
    match matchJoinAt (c :: cs) with
    | some rest => subJoinGo f rest
    | none => c :: subJoinGo f cs

/-- Embeds `re.sub(r'عضویت:\s*\d{4}/\d{2}/\d{2}', '', content)`. -/
def subJoin (l : List Char) : List Char :=
  subJoinGo l.length l

/-- Match `تعداد پست:\s*\d+` at the head of `l` (remainder on success). -/
def matchCountAt (l : List Char) : Option (List Char) :=
  if ("تعداد پست").data.isPrefixOf l then
    match (l.drop ("تعداد پست").data.length) with
    | ':' :: r2 =>
      match r2.dropWhile isPySpace with
      | c :: _ =>
        if c.isDigit then some ((r2.dropWhile isPySpace).dropWhile Char.isDigit)
        else none
      | [] => none
    | _ => none
  else none

/-- Scanning pass of `re.sub(r'تعداد پست:\s*\d+', '', content)`. -/
def subCountGo : Nat → List Char → List Char
  | _, [] => []
  | 0, l => l
  | f + 1, c :: cs =>
    match matchCountAt (c :: cs) with
    | some rest => subCountGo f rest
    | none => c :: subCountGo f cs

/-- Embeds `re.sub(r'تعداد پست:\s*\d+', '', content)`. -/
def subCount (l : List Char) : List Char :=
  subCountGo l.length l

/-- Match `\d{4}/\d{2}/\d{2}\s*\|?\s*\d{2}:\d{2}` at the head of `l`,
returning the matched text. -/
def matchTsAt (l : List Char) : Option (List Char) :=
  match l with
  | a :: b :: c :: d :: '/' :: e :: f :: '/' :: g :: h :: rest =>
    if a.isDigit && b.isDigit && c.isDigit && d.isDigit && e.isDigit && f.isDigit &&
        g.isDigit && h.isDigit then
      let ws1 := rest.takeWhile isPySpace
      let r1 := rest.dropWhile isPySpace
      let pipe := if r1.headD 'x' == '|' then ['|'] else []
      let r2 := if r1.headD 'x' == '|' then r1.tail else r1
      let ws2 := r2.takeWhile isPySpace
      let r3 := r2.dropWhile isPySpace
      match r3 with
      | m1 :: m2 :: ':' :: s1 :: s2 :: _ =>
        if m1.isDigit && m2.isDigit && s1.isDigit && s2.isDigit then
          some ([a, b, c, d, '/', e, f, '/', g, h] ++ ws1 ++ pipe ++ ws2 ++
            [m1, m2, ':', s1, s2])
        else none
      | _ => none
    else none
  | _ => none

/-- Embeds `re.search(r'\d{4}/\d{2}/\d{2}\s*\|?\s*\d{2}:\d{2}', text)`: the text of
the leftmost match, if any. -/
def findTimestamp : List Char → Option (List Char)
  | [] => none
  | c :: cs =>
    match matchTsAt (c :: cs) with
    | some m => some m
    | none => findTimestamp cs

/-- Embeds `NiniesiteScraper.extract_post_data`: content comes from the
`post-content` container when one was found, else from the element's full
text with the two user-info patterns stripped; the result is cleaned, and a
candidate is produced only when the cleaned content is non-empty. -/
def extract_post_data (e : PostElem) : Option PostData :=
  let username := match e.usernameText with
    | some u => stripWS u
    | none => []
  let content0 := match e.containerText with
    | some t => stripWS t
    | none => subCount (subJoin (stripWS e.fullText))
  let timestamp := match e.timestampText with
    | some t => stripWS t
    | none =>
      match findTimestamp e.fullText with
      | some m => m
      | none => []
  let content := clean_content content0
  if content.isEmpty then none
  else some { content := content, username := username, timestamp := timestamp }

/-- Substring test (Python `pat in text`). -/
def containsSub (pat : List Char) : List Char → Bool
  | [] => pat.isEmpty
  | c :: cs => pat.isPrefixOf (c :: cs) || containsSub pat cs

/-- Embeds `^(تعداد پست|عضویت|امتیاز):\s*[\d/]+$` as a whole-string test. -/
def matchesMetaOnly (s : List Char) : Bool :=
  match dropLabel s with
  | some r =>
    match r with
    | ':' :: r2 =>
      let r3 := r2.dropWhile isPySpace
      !r3.isEmpty && r3.all (fun d => d.isDigit || d == '/')
    | _ => false
  | none => false

/-- Embeds `^\d{4}/\d{2}/\d{2}\s*$` as a whole-string test. -/
def matchesDateExact (s : List Char) : Bool :=
  match s with
  | a :: b :: c :: d :: '/' :: e :: f :: '/' :: g :: h :: rest =>
    a.isDigit && b.isDigit && c.isDigit && d.isDigit && e.isDigit && f.isDigit &&
    g.isDigit && h.isDigit && rest.all isPySpace
  | _ => false

/-- Embeds `^[|:\s]+$` as a whole-string test. -/
def matchesSepOnly (s : List Char) : Bool :=
  !s.isEmpty && s.all (fun c => c == '|' || c == ':' || isPySpace c)

/-- Embeds `^(مدیر|استارتر)$` as a whole-string test. -/
def matchesRoleOnly (s : List Char) : Bool :=
  s == ("مدیر").data || s == ("استارتر").data

/-- The `metadata_patterns` loop of `is_valid_post`, applied to
`content.strip()`. -/
def matchesMetadataPattern (s : List Char) : Bool :=
  matchesMetaOnly s || matchesDateExact s || matchesSepOnly s || matchesRoleOnly s

/-- The four terms of the `nav_ratio` check, in source order. -/
def navTermsValid : List (List Char) :=
  [("تبادل نظر").data, ("ثبت نام").data, ("مجله").data, ("فروشگاه").data]

/-- Embeds `nav_ratio = sum(1 for term in [...] if term in content)`. -/
def navTermCount (content : List Char) : Nat :=
  navTermsValid.countP (fun t => containsSub t content)

/-- Embeds `re.search(r'[؀-ۿ]', content)`: does the content contain a
character of the Persian/Arabic base block? -/
def hasPersianChar (content : List Char) : Bool :=
  content.any (fun c => 0x600 ≤ c.val && c.val ≤ 0x6FF)

/-- Embeds `len(content.split())`: the number of maximal non-whitespace runs
(counted at each run's last character). -/
def wordCount : List Char → Nat
  | [] => 0
  | c :: cs =>
    if isPySpace c then wordCount cs
    else
      match cs with
      | [] => 1
      | d :: _ => if isPySpace d then 1 + wordCount cs else wordCount cs

/-- Embeds `NiniesiteScraper.is_valid_post`: the heuristic accept/reject rules, in
source order (non-empty content, 30-character minimum, metadata patterns on
the stripped content, at most 2 navigational terms, Persian presence and a
word count in `[5, 200]`). -/
def is_valid_post (p : PostData) : Bool :=
  if p.content.isEmpty then false
  else if p.content.length < 30 then false
  else if matchesMetadataPattern (stripWS p.content) then false
  else if 2 < navTermCount p.content then false
  else
    hasPersianChar p.content && decide (5 ≤ wordCount p.content) &&
      decide (wordCount p.content ≤ 200)

/-- The duplicate-detection fingerprint of `scrape_thread`:
`hash(post['content'][:100])`, with the hash modelled as injective, i.e. as
the 100-character prefix itself. -/
def content_fingerprint (p : PostData) : List Char :=
  p.content.take 100

/-- The dedup loop of `scrape_thread`, with `seen_content` as the
accumulated fingerprint set. -/
def dedupGo (seen : List (List Char)) : List PostData → List PostData
  | [] => []
  | p :: ps =>
    if content_fingerprint p ∈ seen then dedupGo seen ps
    else p :: dedupGo (content_fingerprint p :: seen) ps

/-- Embeds `scrape_thread`'s "Remove duplicates while preserving order" pass. -/
def remove_duplicates (l : List PostData) : List PostData :=
  dedupGo [] l

/-- Specification-side description of the dedup pass ("keeps exactly the
first occurrence of each fingerprint and removes every later post whose
fingerprint equals that of an earlier post"): keep the head, delete all later
posts with its fingerprint, recurse. -/
def firstOccurrences : List PostData → List PostData
  | [] => []
  | p :: ps =>
    p :: firstOccurrences (ps.filter (fun q => content_fingerprint q ≠ content_fingerprint p))
termination_by l => l.length
decreasing_by
  simp only [List.length_cons]
  exact Nat.lt_succ_of_le (List.length_filter_le _ _)

end V2

namespace V1

/-- One `article` node as seen by `NinisiteScraper.extract_post_data` in
`ninisite_scraper.py`: the texts/attributes its fixed lookups return (`None`
when the lookup finds nothing).  The raw HTML copy (`content_html`) is a
rendering concern and is not modelled. -/
structure Article where
  /-- Embeds `article.get('id')`. -/
  elemId : Option (List Char)
  /-- Embeds `get_text()` of `span[itemprop=name]`. -/
  authorText : Option (List Char)
  /-- Embeds `get('href')` of `a[itemprop=url]`. -/
  authorProfileHref : Option (List Char)
  /-- Embeds `get_text()` of `div.reg-date`. -/
  regDateText : Option (List Char)
  /-- Embeds `get_text()` of `div.post-count`. -/
  postCountText : Option (List Char)
  /-- Embeds `get('content')` of `meta[itemprop=datepublished]`. -/
  dateContent : Option (List Char)
  /-- Embeds `get('content')` of `meta[itemprop=userInteractionCount]` (topic only). -/
  viewsContent : Option (List Char)
  /-- Embeds `get_text()` of `div.post-message`. -/
  postMessageText : Option (List Char)
  /-- Embeds `get_text()` of the `div.reply-message` inside the quotation div (present
  exactly when both nested divs are found). -/
  quoteReplyText : Option (List Char)
  /-- Embeds `get('data-id')` of that `div.reply-message`. -/
  quoteReplyDataId : Option (List Char)
  /-- Embeds `get_text()` of the `span` inside `a.like-count`. -/
  likeSpanText : Option (List Char)
  /-- Embeds `get_text()` of `div.topic-post__signature`. -/
  signatureText : Option (List Char)
  /-- whether `'forum-native-ad'` is among the article's classes. -/
  isAd : Bool
  deriving DecidableEq

/-- One fetched page as seen by the extraction code: the main-topic article
(`article#topic`, when present), the reply articles (`article[id=post-…]`) in
document order, and the nodes `extract_topic_metadata` queries. -/
structure Page where
  /-- text of `h1.topic-title` (of its inner link when present). -/
  metaTitle : Option (List Char)
  /-- Embeds `article#topic`, when found. -/
  topicArticle : Option Article
  /-- the `article[id=post-…]` nodes, in document order. -/
  replyArticles : List Article
  /-- texts of the breadcrumb item names, in order, when a breadcrumb exists. -/
  breadcrumbNames : Option (List (List Char))
  deriving DecidableEq

/-- The post dictionary built by `NinisiteScraper.extract_post_data`
(`page` is filled in by the caller, modelled by `withPage` below). -/
structure Post where
  elemId : Option (List Char)
  author : Option (List Char)
  authorProfile : Option (List Char)
  authorJoinDate : Option (List Char)
  authorPostCount : Option (List Char)
  date : Option (List Char)
  content : Option (List Char)
  quotedContent : Option (List Char)
  replyToId : Option (List Char)
  likes : Option (List Char)
  signature : Option (List Char)
  isMainTopic : Bool
  page : Nat
  deriving DecidableEq

/-- Embeds `NinisiteScraper.extract_post_data`: each field is filled best-effort
from its lookup; the candidate is returned iff it has truthy (non-empty)
content or is the main topic. -/
def extract_post_data (a : Article) (is_main_topic : Bool) : Option Post :=
  let content := a.postMessageText.map stripWS
  let p : Post :=
    { elemId := a.elemId
      author := a.authorText.map stripWS
      authorProfile := a.authorProfileHref
      authorJoinDate := a.regDateText.map stripWS
      authorPostCount := a.postCountText.map stripWS
      date := a.dateContent
      content := content
      quotedContent := a.quoteReplyText.map stripWS
      replyToId := if a.quoteReplyText.isSome then a.quoteReplyDataId else none
      likes := a.likeSpanText.map stripWS
      signature := a.signatureText.map stripWS
      isMainTopic := is_main_topic
      page := 0 }
  if (match content with | some t => !t.isEmpty | none => false) || is_main_topic then
    some p
  else none

/-- Embeds `post['page'] = page_num`. -/
def withPage (n : Nat) (p : Post) : Post :=
  { p with page := n }

/-- The posts `extract_posts` collects from one page numbered `n`: on page 1
the main topic first (when `article#topic` exists), then the reply articles
in document order, skipping ads. -/
def pagePosts (n : Nat) (pg : Page) : List Post :=
  (if n = 1 then
    match pg.topicArticle with
    | some a => ((extract_post_data a true).map (withPage n)).toList
    | none => []
  else []) ++
  pg.replyArticles.filterMap (fun a =>
    if a.isAd then none
    else (extract_post_data a false).map (withPage n))

/-- The page loop of `extract_posts` (`enumerate(pages, 1)`). -/
def extractFrom : Nat → List Page → List Post
  | _, [] => []
  | n, pg :: rest => pagePosts n pg ++ extractFrom (n + 1) rest

/-- Embeds `NinisiteScraper.extract_posts`. -/
def extract_posts (pages : List Page) : List Post :=
  extractFrom 1 pages

/-- The thread metadata dictionary of `extract_topic_metadata`. -/
structure TopicMeta where
  title : Option (List Char)
  author : Option (List Char)
  date : Option (List Char)
  views : Option (List Char)
  /-- breadcrumb names with the first one skipped. -/
  categories : Option (List (List Char))
  deriving DecidableEq

/-- Embeds `NinisiteScraper.extract_topic_metadata`: every field independently
best-effort from page 1. -/
def extract_topic_metadata (pg : Page) : TopicMeta :=
  { title := pg.metaTitle.map stripWS
    author := (pg.topicArticle.bind (·.authorText)).map stripWS
    date := pg.topicArticle.bind (·.dateContent)
    views := pg.topicArticle.bind (·.viewsContent)
    categories := pg.breadcrumbNames.map (fun names => (names.map stripWS).drop 1) }

/-- The one thread-level structural failure of `scrape_discussion`
(`raise Exception("Could not fetch any pages")`). -/
inductive ScrapeError where
  | noPagesFetched
  deriving DecidableEq

/-- Embeds `NinisiteScraper.scrape_discussion`, up to the rendering stage (the
org-mode formatting of the returned data is out of the modelled core): with
the already-fetched pages as input, fail iff no page was retrieved, else
return the metadata of page 1 together with all extracted posts. -/
def scrape_discussion (pages : List Page) : Except ScrapeError (TopicMeta × List Post) :=
  match pages with
  | [] => .error .noPagesFetched
  | pg :: _ => .ok (extract_topic_metadata pg, extract_posts pages)

/-- The `is_persian` first-character test of `format_author_name`: the four
Arabic-script ranges listed in the source. -/
def is_persian (c : Char) : Bool :=
  (0x600 ≤ c.val && c.val ≤ 0x6FF) ||
  (0x750 ≤ c.val && c.val ≤ 0x77F) ||
  (0xFB50 ≤ c.val && c.val ≤ 0xFDFF) ||
  (0xFE70 ≤ c.val && c.val ≤ 0xFEFF)

/-- Embeds `NinisiteScraper.format_author_name`: wrap a name whose first character
is Persian/Arabic in RLI (U+2067) … PDI (U+2069); empty names and other
names are returned unchanged. -/
def format_author_name (author : List Char) : List Char :=
  match author with
  | [] => []
  | first_char :: _ =>
    if is_persian first_char then '⁧' :: author ++ ['⁩']
    else author

/-- The fields of the parsed `datetime` that `parse_date_to_jalali` reads
(`hour24` is the hour after `%I`/`%p` conversion; seconds are parsed and
validated but unused by the output). -/
structure ParsedDT where
  year : Nat
  month : Nat
  day : Nat
  hour24 : Nat
  minute : Nat
  second : Nat
  deriving DecidableEq

/-- strptime `%m` / `%I`: `1[0-2]|0[1-9]|[1-9]`, alternatives in order. -/
def parse12 : List Char → Option (Nat × List Char)
  | c1 :: c2 :: rest =>
    if c1 == '1' && '0' ≤ c2 && c2 ≤ '2' then some (10 + (c2.toNat - 48), rest)
    else if c1 == '0' && '1' ≤ c2 && c2 ≤ '9' then some (c2.toNat - 48, rest)
    else if '1' ≤ c1 && c1 ≤ '9' then some (c1.toNat - 48, c2 :: rest)
    else none
  | [c1] => if '1' ≤ c1 && c1 ≤ '9' then some (c1.toNat - 48, []) else none
  | [] => none

/-- strptime `%d`: `3[01]|[12]\d|0[1-9]|[1-9]`, alternatives in order. -/
def parseDay31 : List Char → Option (Nat × List Char)
  | c1 :: c2 :: rest =>
    if c1 == '3' && ('0' ≤ c2 && c2 ≤ '1') then some (30 + (c2.toNat - 48), rest)
    else if ('1' ≤ c1 && c1 ≤ '2') && c2.isDigit then
      some (10 * (c1.toNat - 48) + (c2.toNat - 48), rest)
    else if c1 == '0' && '1' ≤ c2 && c2 ≤ '9' then some (c2.toNat - 48, rest)
    else if '1' ≤ c1 && c1 ≤ '9' then some (c1.toNat - 48, c2 :: rest)
    else none
  | [c1] => if '1' ≤ c1 && c1 ≤ '9' then some (c1.toNat - 48, []) else none
  | [] => none

/-- strptime `%Y`: exactly four digits. -/
def parseYear4 : List Char → Option (Nat × List Char)
  | a :: b :: c :: d :: rest =>
    if a.isDigit && b.isDigit && c.isDigit && d.isDigit then
      some (1000 * (a.toNat - 48) + 100 * (b.toNat - 48) + 10 * (c.toNat - 48) +
        (d.toNat - 48), rest)
    else none
  | _ => none

/-- strptime `%M`: `[0-5]\d|\d`, alternatives in order. -/
def parseMin59 : List Char → Option (Nat × List Char)
  | c1 :: c2 :: rest =>
    if ('0' ≤ c1 && c1 ≤ '5') && c2.isDigit then
      some (10 * (c1.toNat - 48) + (c2.toNat - 48), rest)
    else if c1.isDigit then some (c1.toNat - 48, c2 :: rest)
    else none
  | [c1] => if c1.isDigit then some (c1.toNat - 48, []) else none
  | [] => none

/-- strptime `%S`: `6[01]|[0-5]\d|\d`, alternatives in order (leap seconds
are matched but later rejected by the `datetime` constructor). -/
def parseSec61 : List Char → Option (Nat × List Char)
  | c1 :: c2 :: rest =>
    if c1 == '6' && ('0' ≤ c2 && c2 ≤ '1') then some (60 + (c2.toNat - 48), rest)
    else if ('0' ≤ c1 && c1 ≤ '5') && c2.isDigit then
      some (10 * (c1.toNat - 48) + (c2.toNat - 48), rest)
    else if c1.isDigit then some (c1.toNat - 48, c2 :: rest)
    else none
  | [c1] => if c1.isDigit then some (c1.toNat - 48, []) else none
  | [] => none

/-- A whitespace character in a strptime format matches `\s+`. -/
def parseWs1 : List Char → Option (List Char)
  | c :: cs => if isPySpace c then some (cs.dropWhile isPySpace) else none
  | [] => none

/-- strptime `%p`: `AM|PM`, case-insensitive; `true` means PM. -/
def parseAmPm : List Char → Option (Bool × List Char)
  | c1 :: c2 :: rest =>
    if (c1 == 'A' || c1 == 'a') && (c2 == 'M' || c2 == 'm') then some (false, rest)
    else if (c1 == 'P' || c1 == 'p') && (c2 == 'M' || c2 == 'm') then some (true, rest)
    else none
  | _ => none

/-- Gregorian leap-year rule (used by the `datetime` day-of-month check). -/
def isLeapYear (y : Nat) : Bool :=
  y % 4 == 0 && (y % 100 != 0 || y % 400 == 0)

/-- Days in a Gregorian month (used by the `datetime` constructor check). -/
def daysInMonth (y m : Nat) : Nat :=
  if m = 2 then (if isLeapYear y then 29 else 28)
  else if m = 4 || m = 6 || m = 9 || m = 11 then 30
  else 31

/-- Embeds `datetime.strptime(date_str, "%m/%d/%Y %I:%M:%S %p")`: match the whole
string against the fixed pattern (`strptime` rejects unconverted trailing
data), then apply the `datetime` constructor's validity checks (year ≥ 1,
day within the month, second ≤ 59) and the 12-hour → 24-hour conversion.
`none` models the `ValueError` caught by the bare `except`. -/
def parseDate (l : List Char) : Option ParsedDT :=
  match parse12 l with
  | none => none
  | some (mo, r1) =>
    match r1 with
    | '/' :: r2 =>
      match parseDay31 r2 with
      | none => none
      | some (d, r3) =>
        match r3 with
        | '/' :: r4 =>
          match parseYear4 r4 with
          | none => none
          | some (y, r5) =>
            match parseWs1 r5 with
            | none => none
            | some r6 =>
              match parse12 r6 with
              | none => none
              | some (h, r7) =>
                match r7 with
                | ':' :: r8 =>
                  match parseMin59 r8 with
                  | none => none
                  | some (mi, r9) =>
                    match r9 with
                    | ':' :: r10 =>
                      match parseSec61 r10 with
                      | none => none
                      | some (s, r11) =>
                        match parseWs1 r11 with
                        | none => none
                        | some r12 =>
                          match parseAmPm r12 with
                          | none => none
                          | some (pm, r13) =>
                            if r13.isEmpty && 1 ≤ y && d ≤ daysInMonth y mo && s ≤ 59 then
                              some { year := y, month := mo, day := d
                                     hour24 :=
                                       if pm then (if h = 12 then 12 else h + 12)
                                       else (if h = 12 then 0 else h)
                                     minute := mi, second := s }
                            else none
                    | _ => none
                | _ => none
        | _ => none
    | _ => none

/-- Embeds `f"{n:0wd}"` for a natural number: zero-pad the decimal digits to `w`. -/
def padNat (w n : Nat) : List Char :=
  let s := (Nat.repr n).data
  List.replicate (w - s.length) '0' ++ s

/-- Embeds `f"{i:04d}"` for a possibly negative year. -/
def padInt4 (i : Int) : List Char :=
  if i < 0 then '-' :: padNat 3 i.natAbs else padNat 4 i.natAbs

/-- Embeds `NinisiteScraper.parse_date_to_jalali`: on a successful parse, the
approximate year shift (`- 621` before the March 21 cutoff, `- 620` on or
after it) with month/day/hour/minute formatted into the `jalali:`-tagged
output; on a failed parse, the original string tagged `jalali:`.  The
Tehran-timezone localization does not change any of the read fields. -/
def parse_date_to_jalali (date_str : List Char) : List Char :=
  match parseDate date_str with
  | none => ("jalali:").data ++ date_str
  | some d =>
    let j_year : Int :=
      if d.month < 3 ∨ (d.month = 3 ∧ d.day < 21) then (d.year : Int) - 621
      else (d.year : Int) - 620
    ("jalali:").data ++ padInt4 j_year ++ '/' :: padNat 2 d.month ++
      '/' :: padNat 2 d.day ++ '/' :: padNat 2 d.hour24 ++ ':' :: padNat 2 d.minute

end V1

namespace Demo

/-- A page with no `article#topic` and no replies. -/
def pageNoTopic : V1.Page :=
  { metaTitle := none, topicArticle := none, replyArticles := [], breadcrumbNames := none }

/-- An article none of whose lookups find anything. -/
def articleBlank : V1.Article :=
  { elemId := none, authorText := none, authorProfileHref := none, regDateText := none
    postCountText := none, dateContent := none, viewsContent := none, postMessageText := none
    quoteReplyText := none, quoteReplyDataId := none, likeSpanText := none
    signatureText := none, isAd := false }

/-- A reply article carrying a 40-character message. -/
def articleReply : V1.Article :=
  { articleBlank with
    elemId := some ("post-1").data
    postMessageText := some (List.replicate 40 'x') }

/-- A page whose `article#topic` exists, with one reply. -/
def pageWithTopic : V1.Page :=
  { metaTitle := some ("t").data, topicArticle := some articleBlank
    replyArticles := [articleReply], breadcrumbNames := none }

/-- A post with a 101-character content. -/
def postA : V2.PostData :=
  { content := List.replicate 100 'a' ++ ['b'], username := [], timestamp := [] }

/-- A post sharing `postA`'s first 100 characters but not its full content. -/
def postB : V2.PostData :=
  { content := List.replicate 100 'a' ++ ['c'], username := [], timestamp := [] }

/-- A post with a different fingerprint. -/
def postC : V2.PostData :=
  { content := List.replicate 100 'd', username := [], timestamp := [] }

/-- An input on which `clean_content` is not idempotent: the `[|:]`-run
substitution turns `: :` into two adjacent spaces, which only a second
cleaning pass collapses. -/
def cleanCEx : List Char := ("a: :bbbbbbbbbbbbbbbbbbbbbbbbbbbbbbbbb").data

/-- An input on which the metadata-label removal is not idempotent: removing
the inner `عضویت:12` splices a new `عضویت:34` match together. -/
def metaCEx : List Char := ("عضوعضویت:12یت:34").data

/-- An input on which the boilerplate-term removal is not idempotent:
removing the inner `مجله` splices a new `مجله` together. -/
def navCEx : List Char := ("مجمجلهله").data

/-- Twenty Persian-script characters (below the 30-character minimum). -/
def persian20 : List Char := ("اااااااااااااااااااا").data

/-- A unit whose content comes from a verified `post-content` container but
is only 20 characters long. -/
def elemShortStruct : V2.PostElem :=
  { usernameText := none, containerText := some persian20, timestampText := none
    fullText := [] }

/-- Forty Latin characters. -/
def latin40 : List Char := List.replicate 40 'x'

/-- A unit whose content comes from a verified `post-content` container but
contains no source-script character. -/
def elemLatinStruct : V2.PostElem :=
  { usernameText := none, containerText := some latin40, timestampText := none
    fullText := [] }

/-- The candidate that `extract_post_data` produces from `elemLatinStruct`. -/
def latinPost : V2.PostData := { content := latin40, username := [], timestamp := [] }

/-- Thirty characters of Persian-script text: five space-separated words. -/
def persian30 : List Char := ("ابپتثج ابپتث ابپتث ابپتث ابپتث").data

/-- A candidate whose content is `persian30`. -/
def post30 : V2.PostData := { content := persian30, username := [], timestamp := [] }

/-- A candidate with exactly 29 characters of content. -/
def post29 : V2.PostData :=
  { content := List.replicate 29 'z', username := [], timestamp := [] }

/-- An author name starting with a Persian character. -/
def persianName : List Char := ("علی").data

/-- An author name starting with a Latin character. -/
def latinName : List Char := ("Ali").data

end Demo

/-! ### Helper lemmas -/

theorem dropWhile_head_false {p : Char → Bool} :
    ∀ (l : List Char) (d : Char) (ds : List Char), l.dropWhile p = d :: ds → p d = false := by
  intro l
  induction l with
  | nil => intro d ds h; simp [List.dropWhile] at h
  | cons c cs ih =>
    intro d ds h
    by_cases hc : p c
    · rw [List.dropWhile_cons_of_pos hc] at h
      exact ih d ds h
    · rw [List.dropWhile_cons_of_neg hc] at h
      cases h
      simpa using hc

namespace V2

theorem collapseWS_cons_not_space {c : Char} (cs : List Char) (hc : isPySpace c = false) :
    collapseWS (c :: cs) = c :: collapseWS cs := by
  simp [collapseWS, hc]

theorem collapseWS_cons_space_hit {c : Char} (cs : List Char) (hc : isPySpace c = true)
    (hh : (collapseWS cs).headD 'x' = ' ') : collapseWS (c :: cs) = collapseWS cs := by
  rw [List.headD_eq_head?] at hh
  simp [collapseWS, hc, hh]

theorem collapseWS_cons_space_miss {c : Char} (cs : List Char) (hc : isPySpace c = true)
    (hh : (collapseWS cs).headD 'x' ≠ ' ') :
    collapseWS (c :: cs) = ' ' :: collapseWS cs := by
  rw [List.headD_eq_head?] at hh
  simp [collapseWS, hc, hh]

theorem collapseWS_idem (l : List Char) : collapseWS (collapseWS l) = collapseWS l := by
  induction l with
  | nil => rfl
  | cons c cs ih =>
    by_cases hc : isPySpace c
    · by_cases hh : (collapseWS cs).headD 'x' = ' '
      · rw [collapseWS_cons_space_hit cs hc hh, ih]
      · rw [collapseWS_cons_space_miss cs hc hh]
        have hh2 : (collapseWS (collapseWS cs)).headD 'x' ≠ ' ' := by rw [ih]; exact hh
        rw [collapseWS_cons_space_miss (collapseWS cs) (by decide) hh2, ih]
    · have hc2 : isPySpace c = false := by simpa using hc
      rw [collapseWS_cons_not_space cs hc2,
        collapseWS_cons_not_space (collapseWS cs) hc2, ih]

theorem removeBackslashes_idem (l : List Char) :
    removeBackslashes (removeBackslashes l) = removeBackslashes l := by
  simp [removeBackslashes, List.filter_filter]

theorem pipeColon_not_space {c : Char} (h : isPipeColon c = true) : isPySpace c = false := by
  simp only [isPipeColon, Bool.or_eq_true, beq_iff_eq] at h
  rcases h with h | h <;> subst h <;> decide

theorem sub3Go_drop_le (c : Char) (cs : List Char)
    (h : isPipeColon (((c :: cs).dropWhile isPySpace).headD 'a') = true) :
    ((((c :: cs).dropWhile isPySpace).dropWhile isPipeColon).dropWhile isPySpace).length ≤
      cs.length := by
  rcases hm : (c :: cs).dropWhile isPySpace with _ | ⟨d, t⟩
  · rw [hm] at h
    exact absurd h (by decide)
  · rw [hm] at h
    simp only [List.headD_cons] at h
    rw [List.dropWhile_cons_of_pos h]
    have h1 : ((t.dropWhile isPipeColon).dropWhile isPySpace).length ≤ t.length :=
      le_trans (List.dropWhile_suffix _).sublist.length_le
        (List.dropWhile_suffix _).sublist.length_le
    have h2 : (d :: t).length ≤ (c :: cs).length := by
      rw [← hm]
      exact (List.dropWhile_suffix _).sublist.length_le
    simp only [List.length_cons] at h2
    omega

theorem sub3Go_cons_hit (f : Nat) (c : Char) (cs : List Char)
    (h : isPipeColon (((c :: cs).dropWhile isPySpace).headD 'a') = true) :
    sub3Go (f + 1) (c :: cs) =
      ' ' :: sub3Go f ((((c :: cs).dropWhile isPySpace).dropWhile
        isPipeColon).dropWhile isPySpace) := by
  rw [List.headD_eq_head?] at h
  simp [sub3Go, h]

theorem sub3Go_cons_miss (f : Nat) (c : Char) (cs : List Char)
    (h : isPipeColon (((c :: cs).dropWhile isPySpace).headD 'a') = false) :
    sub3Go (f + 1) (c :: cs) = c :: sub3Go f cs := by
  rw [List.headD_eq_head?] at h
  simp [sub3Go, h]

theorem sub3Go_no_pc :
    ∀ (f : Nat) (l : List Char), l.length ≤ f → ∀ x ∈ sub3Go f l, isPipeColon x = false := by
  intro f
  induction f with
  | zero =>
    intro l hl x hx
    have hnil : l = [] := List.length_eq_zero.mp (Nat.le_zero.mp hl)
    subst hnil
    simp [sub3Go] at hx
  | succ f ih =>
    intro l hl x hx
    cases l with
    | nil => simp [sub3Go] at hx
    | cons c cs =>
      simp only [List.length_cons, Nat.succ_le_succ_iff] at hl
      by_cases hcond : isPipeColon (((c :: cs).dropWhile isPySpace).headD 'a') = true
      · rw [sub3Go_cons_hit f c cs hcond] at hx
        rcases List.mem_cons.mp hx with h | h
        · subst h; decide
        · exact ih _ (le_trans (sub3Go_drop_le c cs hcond) hl) x h
      · have hcond2 : isPipeColon (((c :: cs).dropWhile isPySpace).headD 'a') = false := by
          simpa using hcond
        rw [sub3Go_cons_miss f c cs hcond2] at hx
        rcases List.mem_cons.mp hx with h | h
        · subst h
          by_contra hpc
          have hpc2 : isPipeColon x = true := by simpa using hpc
          have hns : isPySpace x = false := pipeColon_not_space hpc2
          rw [List.dropWhile_cons_of_neg (by simp [hns])] at hcond2
          simp only [List.headD_cons] at hcond2
          rw [hcond2] at hpc2
          exact absurd hpc2 (by decide)
        · exact ih cs hl x h

theorem sub3Go_id_of_no_pc :
    ∀ (f : Nat) (l : List Char), l.length ≤ f →
      (∀ x ∈ l, isPipeColon x = false) → sub3Go f l = l := by
  intro f
  induction f with
  | zero =>
    intro l hl _
    have hnil : l = [] := List.length_eq_zero.mp (Nat.le_zero.mp hl)
    subst hnil; rfl
  | succ f ih =>
    intro l hl hno
    cases l with
    | nil => rfl
    | cons c cs =>
      simp only [List.length_cons, Nat.succ_le_succ_iff] at hl
      have hcond : isPipeColon (((c :: cs).dropWhile isPySpace).headD 'a') = false := by
        rcases hm : (c :: cs).dropWhile isPySpace with _ | ⟨d, t⟩
        · decide
        · simp only [List.headD_cons]
          have hd : d ∈ c :: cs := (List.dropWhile_suffix isPySpace).sublist.mem
            (hm ▸ List.mem_cons_self d t)
          exact hno d hd
      rw [sub3Go_cons_miss f c cs hcond]
      rw [ih cs hl (fun x hx => hno x (List.mem_cons_of_mem c hx))]

theorem sub3_idem (l : List Char) : sub3 (sub3 l) = sub3 l :=
  sub3Go_id_of_no_pc (sub3 l).length (sub3 l) le_rfl
    (sub3Go_no_pc l.length l le_rfl)

theorem dropDateOnly_idem (l : List Char) :
    dropDateOnly (dropDateOnly l) = dropDateOnly l := by
  by_cases h : matchesDateOnly l
  · have h0 : matchesDateOnly [] = false := rfl
    simp [dropDateOnly, h, h0]
  · simp [dropDateOnly, h]

theorem stripWS_idem (l : List Char) : stripWS (stripWS l) = stripWS l := by
  unfold stripWS
  have h1 : (List.rdropWhile isPySpace (l.dropWhile isPySpace)).dropWhile isPySpace =
      List.rdropWhile isPySpace (l.dropWhile isPySpace) := by
    rcases hm : List.rdropWhile isPySpace (l.dropWhile isPySpace) with _ | ⟨a, t⟩
    · rfl
    · have hpre : List.rdropWhile isPySpace (l.dropWhile isPySpace) <+:
          l.dropWhile isPySpace := List.rdropWhile_prefix _ _
      rw [hm] at hpre
      rcases hpre with ⟨s, hs⟩
      have hhead : l.dropWhile isPySpace = a :: (t ++ s) := by
        rw [← hs]; rfl
      have ha : isPySpace a = false := dropWhile_head_false _ a (t ++ s) hhead
      exact List.dropWhile_cons_of_neg (by simp [ha])
  rw [h1, List.rdropWhile_idempotent]

theorem minLengthGate_idem (l : List Char) :
    minLengthGate (minLengthGate l) = minLengthGate l := by
  unfold minLengthGate
  by_cases h : (stripWS l).length < 30
  · simp only [h, if_true]
    decide
  · simp only [h, if_false]
    rw [stripWS_idem l]
    simp [h]

end V2

namespace V2

theorem firstOccurrences_cons (p : PostData) (ps : List PostData) :
    firstOccurrences (p :: ps) =
      p :: firstOccurrences
        (ps.filter (fun q => content_fingerprint q ≠ content_fingerprint p)) := by
  rw [firstOccurrences]

theorem dedupGo_eq_firstOcc (l : List PostData) :
    ∀ (seen : List (List Char)),
      dedupGo seen l =
        firstOccurrences (l.filter (fun p => decide (content_fingerprint p ∉ seen))) := by
  induction l with
  | nil => intro seen; simp [dedupGo, firstOccurrences]
  | cons p ps ih =>
    intro seen
    by_cases hp : content_fingerprint p ∈ seen
    · have hL : dedupGo seen (p :: ps) = dedupGo seen ps := by simp [dedupGo, hp]
      have hf : (p :: ps).filter (fun q => decide (content_fingerprint q ∉ seen)) =
          ps.filter (fun q => decide (content_fingerprint q ∉ seen)) := by
        simp [List.filter_cons, hp]
      rw [hL, hf]
      exact ih seen
    · have hL : dedupGo seen (p :: ps) =
          p :: dedupGo (content_fingerprint p :: seen) ps := by
        simp [dedupGo, hp]
      have hf : (p :: ps).filter (fun q => decide (content_fingerprint q ∉ seen)) =
          p :: ps.filter (fun q => decide (content_fingerprint q ∉ seen)) := by
        simp [List.filter_cons, hp]
      rw [hL, hf, firstOccurrences_cons]
      congr 1
      rw [List.filter_filter]
      have hfun : (fun q => decide (content_fingerprint q ≠ content_fingerprint p) &&
          decide (content_fingerprint q ∉ seen)) =
          (fun q => decide (content_fingerprint q ∉ content_fingerprint p :: seen)) := by
        funext q
        by_cases h1 : content_fingerprint q = content_fingerprint p <;>
          by_cases h2 : content_fingerprint q ∈ seen <;> simp [h1, h2]
      rw [hfun]
      exact ih (content_fingerprint p :: seen)

theorem dedupGo_sublist (l : List PostData) :
    ∀ seen, List.Sublist (dedupGo seen l) l := by
  induction l with
  | nil => intro seen; simp [dedupGo]
  | cons p ps ih =>
    intro seen
    by_cases hp : content_fingerprint p ∈ seen
    · rw [show dedupGo seen (p :: ps) = dedupGo seen ps from by simp [dedupGo, hp]]
      exact (ih seen).cons p
    · rw [show dedupGo seen (p :: ps) =
          p :: dedupGo (content_fingerprint p :: seen) ps from by simp [dedupGo, hp]]
      exact (ih _).cons₂ p

theorem is_valid_post_no_persian (p : PostData) (h : hasPersianChar p.content = false) :
    is_valid_post p = false := by
  unfold is_valid_post
  split
  · rfl
  · split
    · rfl
    · split
      · rfl
      · split
        · rfl
        · simp [h]

theorem extract_struct_clean_empty (e : PostElem) (t : List Char)
    (hc : e.containerText = some t) (h : clean_content (stripWS t) = []) :
    extract_post_data e = none := by
  unfold extract_post_data
  rw [hc]
  simp [h]

theorem extract_struct_clean_nonempty (e : PostElem) (t : List Char)
    (hc : e.containerText = some t) (h : clean_content (stripWS t) ≠ []) :
    ∃ p, extract_post_data e = some p ∧ p.content = clean_content (stripWS t) := by
  have he : extract_post_data e = some
      { content := clean_content (stripWS t)
        username := match e.usernameText with | some u => stripWS u | none => []
        timestamp := match e.timestampText with
          | some u => stripWS u
          | none => match findTimestamp e.fullText with | some m => m | none => [] } := by
    unfold extract_post_data
    rw [hc]
    simp [List.isEmpty_iff, h]
  exact ⟨_, he, rfl⟩

theorem wordCount_pos_has_nonspace (l : List Char) (h : 1 ≤ wordCount l) :
    ∃ c ∈ l, isPySpace c = false := by
  induction l with
  | nil => simp [wordCount] at h
  | cons c cs ih =>
    by_cases hc : isPySpace c
    · rw [show wordCount (c :: cs) = wordCount cs from by simp [wordCount, hc]] at h
      rcases ih h with ⟨d, hd, hdf⟩
      exact ⟨d, List.mem_cons_of_mem c hd, hdf⟩
    · exact ⟨c, List.mem_cons_self c cs, by simpa using hc⟩

end V2

namespace V1

theorem extract_main (a : Article) :
    ∃ p, extract_post_data a true = some p ∧ p.isMainTopic = true := by
  unfold extract_post_data
  simp

theorem extract_false_flag (a : Article) (p : Post)
    (h : extract_post_data a false = some p) : p.isMainTopic = false := by
  unfold extract_post_data at h
  simp only [Bool.or_false] at h
  split at h
  · cases h; rfl
  · exact Option.noConfusion h

theorem withPage_flag (n : Nat) (p : Post) : (withPage n p).isMainTopic = p.isMainTopic := rfl

theorem mem_replies_flag (n : Nat) (pg : Page) (q : Post)
    (hq : q ∈ pg.replyArticles.filterMap (fun a =>
      if a.isAd then none else (extract_post_data a false).map (withPage n))) :
    q.isMainTopic = false := by
  rcases List.mem_filterMap.mp hq with ⟨a, _, ha⟩
  split at ha
  · exact Option.noConfusion ha
  · rcases Option.map_eq_some'.mp ha with ⟨p, hp, hpq⟩
    rw [← hpq, withPage_flag]
    exact extract_false_flag a p hp

theorem extractFrom_flag (pages : List Page) :
    ∀ n, 2 ≤ n → ∀ q ∈ extractFrom n pages, q.isMainTopic = false := by
  induction pages with
  | nil => intro n _ q hq; simp [extractFrom] at hq
  | cons pg rest ih =>
    intro n hn q hq
    rw [show extractFrom n (pg :: rest) = pagePosts n pg ++ extractFrom (n + 1) rest
      from rfl] at hq
    rcases List.mem_append.mp hq with h | h
    · unfold pagePosts at h
      rw [if_neg (by omega)] at h
      simp only [List.nil_append] at h
      exact mem_replies_flag n pg q h
    · exact ih (n + 1) (by omega) q h

theorem extract_v1_no_threshold (a : Article) (t : List Char)
    (hm : a.postMessageText = some t) (hne : stripWS t ≠ []) :
    ∃ p, extract_post_data a false = some p ∧ p.content = some (stripWS t) := by
  have he : extract_post_data a false = some
      { elemId := a.elemId
        author := a.authorText.map stripWS
        authorProfile := a.authorProfileHref
        authorJoinDate := a.regDateText.map stripWS
        authorPostCount := a.postCountText.map stripWS
        date := a.dateContent
        content := some (stripWS t)
        quotedContent := a.quoteReplyText.map stripWS
        replyToId := if a.quoteReplyText.isSome then a.quoteReplyDataId else none
        likes := a.likeSpanText.map stripWS
        signature := a.signatureText.map stripWS
        isMainTopic := false
        page := 0 } := by
    unfold extract_post_data
    rw [hm]
    simp [List.isEmpty_iff, hne]
  exact ⟨_, he, rfl⟩

end V1

/-! ### Claim theorems -/

/-- C1 (counterexample): the claim "for every assembled thread built from at
least one page, exactly one Post has `isMainTopic = true`" fails on the code:
for a first page with no `article#topic` (and no replies), `extract_posts`
yields no main-topic post at all. -/
theorem C1_main_topic_counterexample :
    ¬ ((V1.extract_posts [Demo.pageNoTopic]).countP (fun p => p.isMainTopic) = 1) := by
  decide

/-- C1 (amended): if the first page contains a main-topic unit then exactly
one extracted Post has `isMainTopic = true` and it is the first element of
the ordered posts sequence, regardless of how posts are grouped across
pages; if the first page has no main-topic unit, no extracted Post has
`isMainTopic = true`. -/
theorem C1_main_topic_amended (pg : V1.Page) (rest : List V1.Page) :
    (pg.topicArticle.isSome = true →
      ∃ hd tl, V1.extract_posts (pg :: rest) = hd :: tl ∧ hd.isMainTopic = true ∧
        ∀ q ∈ tl, q.isMainTopic = false) ∧
    (pg.topicArticle = none →
      ∀ q ∈ V1.extract_posts (pg :: rest), q.isMainTopic = false) := by
  constructor
  · intro hsome
    rcases Option.isSome_iff_exists.mp hsome with ⟨a, ha⟩
    rcases V1.extract_main a with ⟨p, hp, hflag⟩
    refine ⟨V1.withPage 1 p,
      (pg.replyArticles.filterMap (fun a =>
        if a.isAd then none else (V1.extract_post_data a false).map (V1.withPage 1))) ++
        V1.extractFrom 2 rest, ?_, ?_, ?_⟩
    · rw [show V1.extract_posts (pg :: rest) =
          V1.pagePosts 1 pg ++ V1.extractFrom 2 rest from rfl]
      unfold V1.pagePosts
      rw [if_pos rfl, ha]
      simp [hp]
    · rw [V1.withPage_flag]; exact hflag
    · intro q hq
      rcases List.mem_append.mp hq with h | h
      · exact V1.mem_replies_flag 1 pg q h
      · exact V1.extractFrom_flag rest 2 le_rfl q h
  · intro hnone q hq
    rw [show V1.extract_posts (pg :: rest) =
        V1.pagePosts 1 pg ++ V1.extractFrom 2 rest from rfl] at hq
    rcases List.mem_append.mp hq with h | h
    · unfold V1.pagePosts at h
      rw [if_pos rfl, hnone] at h
      simp only [List.nil_append] at h
      exact V1.mem_replies_flag 1 pg q h
    · exact V1.extractFrom_flag rest 2 le_rfl q h

/-- C1 (witness): the amended theorem at a concrete one-page thread whose
first page has a main-topic unit. -/
theorem C1_main_topic_witness :
    ∃ hd tl, V1.extract_posts [Demo.pageWithTopic] = hd :: tl ∧
      hd.isMainTopic = true ∧ ∀ q ∈ tl, q.isMainTopic = false :=
  (C1_main_topic_amended Demo.pageWithTopic []).1 (by decide)

/-- C2: the dedup pass of `scrape_thread` equals the keep-the-first-occurrence
filter (first occurrence of each fingerprint kept, every later post with an
already-seen fingerprint removed), its output is a sublist of its input
(stable filtering, never reordering), and the fingerprint depends only on the
first 100 characters of the content, so two posts sharing a 100-character
prefix get equal fingerprints even when their full contents differ. -/
theorem C2_dedup_first_occurrence (l : List V2.PostData) :
    V2.remove_duplicates l = V2.firstOccurrences l ∧
    List.Sublist (V2.remove_duplicates l) l ∧
    ∀ p q : V2.PostData, p.content.take 100 = q.content.take 100 →
      V2.content_fingerprint p = V2.content_fingerprint q := by
  refine ⟨?_, V2.dedupGo_sublist l [], ?_⟩
  · rw [V2.remove_duplicates, V2.dedupGo_eq_firstOcc l []]
    congr 1
    simp
  · intro p q h
    unfold V2.content_fingerprint
    rw [h]

/-- C2 (witness): the theorem at a concrete list in which the second post
shares the first post's 100-character prefix with a different full content,
together with the evaluated dedup output. -/
theorem C2_dedup_witness :
    V2.remove_duplicates [Demo.postA, Demo.postB, Demo.postC] =
      V2.firstOccurrences [Demo.postA, Demo.postB, Demo.postC] ∧
    V2.content_fingerprint Demo.postA = V2.content_fingerprint Demo.postB ∧
    Demo.postA ≠ Demo.postB ∧
    V2.remove_duplicates [Demo.postA, Demo.postB, Demo.postC] = [Demo.postA, Demo.postC] :=
  ⟨(C2_dedup_first_occurrence [Demo.postA, Demo.postB, Demo.postC]).1,
   (C2_dedup_first_occurrence [Demo.postA, Demo.postB, Demo.postC]).2.2
     Demo.postA Demo.postB (by decide),
   by decide, by decide⟩

/-- C3 (counterexample): `clean_content` is not idempotent: on `cleanCEx` the
`[|:]`-run substitution produces two adjacent spaces, which only a second
application collapses. -/
theorem C3_normalization_idem_counterexample :
    V2.clean_content (V2.clean_content Demo.cleanCEx) ≠ V2.clean_content Demo.cleanCEx := by
  decide

/-- C3 (amended): the whitespace-collapse, escape-stripping,
punctuation-run-stripping, standalone-date-removal and minimum-length rules
are each individually idempotent, but the metadata-label removal and the
boilerplate-phrase removal are not (removal can splice a new match
together), and the composed `clean_content` is not idempotent. -/
theorem C3_normalization_idem_amended :
    (∀ l, V2.collapseWS (V2.collapseWS l) = V2.collapseWS l) ∧
    (∀ l, V2.removeBackslashes (V2.removeBackslashes l) = V2.removeBackslashes l) ∧
    (∀ l, V2.sub3 (V2.sub3 l) = V2.sub3 l) ∧
    (∀ l, V2.dropDateOnly (V2.dropDateOnly l) = V2.dropDateOnly l) ∧
    (∀ l, V2.minLengthGate (V2.minLengthGate l) = V2.minLengthGate l) ∧
    V2.subMeta (V2.subMeta Demo.metaCEx) ≠ V2.subMeta Demo.metaCEx ∧
    V2.removeNavTerms (V2.removeNavTerms Demo.navCEx) ≠ V2.removeNavTerms Demo.navCEx :=
  ⟨V2.collapseWS_idem, V2.removeBackslashes_idem, V2.sub3_idem, V2.dropDateOnly_idem,
   V2.minLengthGate_idem, by decide, by decide⟩

/-- C4 (counterexample): the claim "no minimum-length threshold / script
check on the verified-container path" fails on the code: a 20-character
container content is rejected by the cleaner's 30-character minimum, and a
40-character Latin container post is rejected by the validator's
source-script check. -/
theorem C4_two_tier_counterexample :
    V2.extract_post_data Demo.elemShortStruct = none ∧
    V2.extract_post_data Demo.elemLatinStruct = some Demo.latinPost ∧
    V2.is_valid_post Demo.latinPost = false :=
  ⟨by decide, by decide, by decide⟩

/-- C4 (amended): in `ninisite_scraper_v2.py` the 30-character minimum (via
`clean_content`) governs the verified-container path exactly as it does the
fallback path, and the source-script check of `is_valid_post` applies to
every candidate regardless of extraction path; only the structurally precise
implementation in `ninisite_scraper.py` applies no minimum-length or script
check to its `post-message` content. -/
theorem C4_two_tier_amended :
    (∀ (e : V2.PostElem) (t : List Char), e.containerText = some t →
      V2.clean_content (stripWS t) = [] → V2.extract_post_data e = none) ∧
    (∀ (e : V2.PostElem) (t : List Char), e.containerText = some t →
      V2.clean_content (stripWS t) ≠ [] →
      ∃ p, V2.extract_post_data e = some p ∧ p.content = V2.clean_content (stripWS t)) ∧
    (∀ p : V2.PostData, V2.hasPersianChar p.content = false →
      V2.is_valid_post p = false) ∧
    (∀ (a : V1.Article) (t : List Char), a.postMessageText = some t → stripWS t ≠ [] →
      ∃ p, V1.extract_post_data a false = some p ∧ p.content = some (stripWS t)) :=
  ⟨V2.extract_struct_clean_empty, V2.extract_struct_clean_nonempty,
   V2.is_valid_post_no_persian, V1.extract_v1_no_threshold⟩

/-- C4 (witness): the amended theorem at concrete inputs. -/
theorem C4_two_tier_witness :
    V2.extract_post_data Demo.elemShortStruct = none ∧
    (∃ p, V2.extract_post_data Demo.elemLatinStruct = some p ∧
      p.content = V2.clean_content (stripWS Demo.latin40)) ∧
    V2.is_valid_post Demo.latinPost = false ∧
    (∃ p, V1.extract_post_data Demo.articleReply false = some p ∧
      p.content = some (stripWS (List.replicate 40 'x'))) :=
  ⟨C4_two_tier_amended.1 Demo.elemShortStruct Demo.persian20 rfl (by decide),
   C4_two_tier_amended.2.1 Demo.elemLatinStruct Demo.latin40 rfl (by decide),
   C4_two_tier_amended.2.2.1 Demo.latinPost (by decide),
   C4_two_tier_amended.2.2.2 Demo.articleReply (List.replicate 40 'x') rfl (by decide)⟩

/-- C5: the validator rejects every candidate with exactly 29 characters of
content, and accepts a candidate whose 30-character content consists of
source-script characters (with the spaces separating its words) whenever the
remaining constraints hold (no pure-metadata match, at most 2 navigational
terms, word count within `[5, 200]`). -/
theorem C5_validator_boundary :
    (∀ p : V2.PostData, p.content.length = 29 → V2.is_valid_post p = false) ∧
    (∀ p : V2.PostData,
      p.content.length = 30 →
      (∀ c ∈ p.content, (0x600 ≤ c.val && c.val ≤ 0x6FF) = true ∨ isPySpace c = true) →
      V2.matchesMetadataPattern (stripWS p.content) = false →
      V2.navTermCount p.content ≤ 2 →
      5 ≤ V2.wordCount p.content →
      V2.wordCount p.content ≤ 200 →
      V2.is_valid_post p = true) := by
  constructor
  · intro p h29
    have hne : p.content ≠ [] := fun h => by simp [h] at h29
    simp [V2.is_valid_post, List.isEmpty_iff, hne, h29]
  · intro p h30 hchars hmeta hnav hwc1 hwc2
    have hne : p.content ≠ [] := fun h => by simp [h] at h30
    have hpers : V2.hasPersianChar p.content = true := by
      rcases V2.wordCount_pos_has_nonspace p.content (by omega) with ⟨c, hc, hcf⟩
      rcases hchars c hc with h | h
      · unfold V2.hasPersianChar
        rw [List.any_eq_true]
        exact ⟨c, hc, h⟩
      · rw [hcf] at h
        exact Bool.noConfusion h
    have hnav2 : ¬ (2 < V2.navTermCount p.content) := by omega
    simp [V2.is_valid_post, List.isEmpty_iff, hne, h30, hmeta, hnav2, hpers, hwc1, hwc2]

/-- C5 (witness): the theorem at a 29-character Latin content (rejected) and
the 30-character five-word Persian content `persian30` (accepted). -/
theorem C5_validator_boundary_witness :
    V2.is_valid_post Demo.post29 = false ∧ V2.is_valid_post Demo.post30 = true :=
  ⟨C5_validator_boundary.1 Demo.post29 (by decide),
   C5_validator_boundary.2 Demo.post30 (by decide) (by decide) (by decide) (by decide)
     (by decide) (by decide)⟩

/-- C6: on any input the fixed pattern fails to parse, `parse_date_to_jalali`
returns (totally, modelling "never raises") the original string prefixed with
the `jalali:` calendar marker, hence a value containing the original input as
a literal substring together with the tag. -/
theorem C6_date_fallback (s : List Char) (h : V1.parseDate s = none) :
    V1.parse_date_to_jalali s = ("jalali:").data ++ s ∧
    (∃ pre suf, V1.parse_date_to_jalali s = pre ++ s ++ suf) ∧
    (∃ rest, V1.parse_date_to_jalali s = ("jalali:").data ++ rest) := by
  have he : V1.parse_date_to_jalali s = ("jalali:").data ++ s := by
    unfold V1.parse_date_to_jalali
    rw [h]
  exact ⟨he, ⟨("jalali:").data, [], by rw [he]; simp⟩, ⟨s, he⟩⟩

/-- C6 (witness): the theorem at the unparsable input `"garbage"`. -/
theorem C6_date_fallback_witness :
    V1.parse_date_to_jalali ("garbage").data = ("jalali:").data ++ ("garbage").data :=
  (C6_date_fallback ("garbage").data (by decide)).1

/-- C7: for every timestamp string the fixed pattern parses, the output year
is the Gregorian year minus 620 on or after the March 21 cutoff and minus 621
before it, with the parsed month, day, hour and minute carried unchanged into
the tagged output. -/
theorem C7_year_shift (s : List Char) (d : V1.ParsedDT) (h : V1.parseDate s = some d) :
    ((3 < d.month ∨ (d.month = 3 ∧ 21 ≤ d.day)) →
      V1.parse_date_to_jalali s =
        ("jalali:").data ++ V1.padInt4 ((d.year : Int) - 620) ++ '/' :: V1.padNat 2 d.month ++
          '/' :: V1.padNat 2 d.day ++ '/' :: V1.padNat 2 d.hour24 ++
          ':' :: V1.padNat 2 d.minute) ∧
    ((d.month < 3 ∨ (d.month = 3 ∧ d.day < 21)) →
      V1.parse_date_to_jalali s =
        ("jalali:").data ++ V1.padInt4 ((d.year : Int) - 621) ++ '/' :: V1.padNat 2 d.month ++
          '/' :: V1.padNat 2 d.day ++ '/' :: V1.padNat 2 d.hour24 ++
          ':' :: V1.padNat 2 d.minute) := by
  constructor
  · intro hcut
    have hn : ¬ (d.month < 3 ∨ (d.month = 3 ∧ d.day < 21)) := by
      rcases hcut with h1 | ⟨h1, h2⟩ <;> omega
    simp only [V1.parse_date_to_jalali, h]
    rw [if_neg hn]
  · intro hcut
    simp only [V1.parse_date_to_jalali, h]
    rw [if_pos hcut]

/-- C7 (witness): the theorem at `"7/4/2023 8:02:48 AM"` (after the cutoff,
year 1403) and `"2/4/2023 8:02:48 PM"` (before the cutoff, year 1402). -/
theorem C7_year_shift_witness :
    V1.parse_date_to_jalali ("7/4/2023 8:02:48 AM").data =
      ("jalali:").data ++ V1.padInt4 ((2023 : Int) - 620) ++ '/' :: V1.padNat 2 7 ++
        '/' :: V1.padNat 2 4 ++ '/' :: V1.padNat 2 8 ++ ':' :: V1.padNat 2 2 ∧
    V1.parse_date_to_jalali ("2/4/2023 8:02:48 PM").data =
      ("jalali:").data ++ V1.padInt4 ((2023 : Int) - 621) ++ '/' :: V1.padNat 2 2 ++
        '/' :: V1.padNat 2 4 ++ '/' :: V1.padNat 2 20 ++ ':' :: V1.padNat 2 2 :=
  ⟨(C7_year_shift ("7/4/2023 8:02:48 AM").data
      { year := 2023, month := 7, day := 4, hour24 := 8, minute := 2, second := 48 }
      (by decide)).1 (by decide),
   (C7_year_shift ("2/4/2023 8:02:48 PM").data
      { year := 2023, month := 2, day := 4, hour24 := 20, minute := 2, second := 48 }
      (by decide)).2 (by decide)⟩

/-- C8: `format_author_name` wraps a name whose first character lies in one of
the four right-to-left ranges in U+2067 … U+2069 and returns any other
non-empty name unchanged; it is a pure total function. -/
theorem C8_directionality (c : Char) (cs : List Char) :
    (V1.is_persian c = true →
      V1.format_author_name (c :: cs) = '⁧' :: (c :: cs) ++ ['⁩']) ∧
    (V1.is_persian c = false → V1.format_author_name (c :: cs) = c :: cs) := by
  constructor
  · intro h; simp [V1.format_author_name, h]
  · intro h; simp [V1.format_author_name, h]

/-- C8 (witness): the theorem at a Persian-initial and a Latin-initial name. -/
theorem C8_directionality_witness :
    V1.format_author_name Demo.persianName = '⁧' :: Demo.persianName ++ ['⁩'] ∧
    V1.format_author_name Demo.latinName = Demo.latinName := by
  constructor
  · have he : Demo.persianName = 'ع' :: ("لی").data := by decide
    rw [he]
    exact (C8_directionality 'ع' (("لی").data)).1 (by decide)
  · have he : Demo.latinName = 'A' :: ("li").data := by decide
    rw [he]
    exact (C8_directionality 'A' (("li").data)).2 (by decide)

/-- C9: with zero pages the assembler fails with the no-pages-fetched error
and produces no partial thread; with at least one page it always returns a
thread value, so the zero-page case is the only thread-level structural
failure (field-level failures having degraded to defaults inside the
extractors). -/
theorem C9_zero_page_failure :
    V1.scrape_discussion [] = Except.error V1.ScrapeError.noPagesFetched ∧
    ∀ pages : List V1.Page, pages ≠ [] →
      ∃ t, V1.scrape_discussion pages = Except.ok t := by
  constructor
  · rfl
  · intro pages hne
    cases pages with
    | nil => exact absurd rfl hne
    | cons pg rest => exact ⟨_, rfl⟩

/-- C9 (witness): the theorem at a concrete one-page input. -/
theorem C9_zero_page_failure_witness :
    ∃ t, V1.scrape_discussion [Demo.pageWithTopic] = Except.ok t :=
  C9_zero_page_failure.2 [Demo.pageWithTopic] (by simp)

/-- C10: `format_author_name` returns the empty author name unchanged (the
`if not author` guard), so the first-character test never accesses a
character of an empty string; the Lean embedding is a total function. -/
theorem C10_empty_author_unchanged : V1.format_author_name [] = [] := rfl
